import Mathlib

/-!
Verification of the auction clock and bid-ranking engine of the
reverse-auction server, as implemented in `routes/route-events.js` and
`sockets/socket-auction-timer.js`.

Conventions of the shallow embedding:

* Wall-clock instants are integers counting milliseconds (the value of a JS
  `Date`); durations read from the database (`EXTRACT(EPOCH FROM ...)::int`)
  are integer seconds.
* Nullable database columns become `Option` fields.
* JS `Math.floor(x / 1000)` on an integer millisecond quantity is `Int.fdiv
  _ 1000` (floor division).
* The JS "or default" idiom `v || d` on a numeric column is `jsOr`: it takes
  the default both when the column is NULL and when it is 0.
* Bid amounts are modelled as integers; a request-body value is a `JSVal`,
  which is enough to express the route's `!amount || isNaN(amount)`
  validation (`jsToNumber` plays the role of JS numeric coercion, with
  `none` standing for NaN; decimal strings are modelled by `String.toInt?`).
-/

/-- JS `v || d` for a nullable numeric column: NULL and 0 are falsy. -/
def jsOr (o : Option Int) (d : Int) : Int :=
  match o with
  | none => d
  | some v => if v = 0 then d else v

/-- JS `v || 0` for a nullable numeric column. -/
def jsOrZero (o : Option Int) : Int :=
  jsOr o 0

/-- A request-body value as the bid-submission route sees it: a (finite)
number, a string, `null`, or `undefined`. -/
inductive JSVal where
  | num (q : Int)
  | str (s : String)
  | nullv
  | undef
deriving DecidableEq

/-- JS truthiness of a request-body value (`!amount` is its negation). -/
def jsTruthy : JSVal → Bool
  | .num q => q != 0
  | .str s => s != ""
  | .nullv => false
  | .undef => false

/-- Decimal digit value of a character, `none` otherwise. -/
def charDigit (c : Char) : Option Nat :=
  if 48 ≤ c.toNat ∧ c.toNat ≤ 57 then some (c.toNat - 48) else none

/-- Parse a nonempty digit string. -/
def parseDigits (l : List Char) : Option Nat :=
  match l with
  | [] => none
  | _ =>
    l.foldl
      (fun acc c =>
        match acc, charDigit c with
        | some n, some d => some (n * 10 + d)
        | _, _ => none)
      (some 0)

/-- JS `Number(...)` coercion of a string, restricted to the
decimal-integer strings the model covers (`""` coerces to 0, an optional
leading sign then digits; anything else is NaN). -/
def parseJsNumberString (s : String) : Option Int :=
  match s.data with
  | [] => some 0
  | '-' :: rest => (parseDigits rest).map (fun n => -(n : Int))
  | l => (parseDigits l).map (fun n => (n : Int))

/-- JS numeric coercion; `none` models NaN. -/
def jsToNumber : JSVal → Option Int
  | .num q => some q
  | .str s => parseJsNumberString s
  | .nullv => some 0
  | .undef => none

/-- JS global `isNaN` after coercion. -/
def jsIsNaN (v : JSVal) : Bool :=
  (jsToNumber v).isNone

/-- The `events` row fields the engine reads and writes
(`SELECT auction_end_time, extension_time, extension_threshold, type,
paused_time_remaining, elapsed_seconds FROM events`). Times are epoch
milliseconds, durations are seconds. -/
structure EventRow where
  type : String
  auction_end_time : Option Int := none
  paused_time_remaining : Option Int := none
  elapsed_seconds : Option Int := none
  extension_time : Option Int := none
  extension_threshold : Option Int := none
deriving DecidableEq

/-- One row of the `bids` table. -/
structure BidRow where
  id : Nat
  eventId : Nat
  lineItemId : Nat
  userId : Nat
  amount : Int
  createdAt : Int
deriving DecidableEq

/-- Observable outcome of one `POST /events/:id/bids` call:
HTTP status, whether an `INSERT INTO bids` ran, the value written to
`auction_end_time` by the extension `UPDATE` (`none` when no such write
happened), the `newEndTime` carried by an emitted `auction_extended`
socket message (`none` when none was emitted), and whether `bid_update`
was emitted. -/
structure BidSubmission where
  status : Nat
  inserted : Bool
  newEndTime : Option Int
  extendedEmit : Option Int
  bidEmit : Bool
deriving DecidableEq

/-- The accepted-bid outcome shared by all non-extension paths of the
route: HTTP 200, row inserted, no extension write, no
`auction_extended`, `bid_update` emitted. -/
def acceptedPlain : BidSubmission :=
  { status := 200, inserted := true, newEndTime := none,
    extendedEmit := none, bidEmit := true }

/-- `router.post("/events/:id/bids")` from `routes/route-events.js`:
reject when `!amount || isNaN(amount)`; otherwise insert the bid row,
then run the anti-sniping extension check
(`event && event.auction_end_time && event.type !== 'paused'` and
`timeRemaining > 0 && timeRemaining <= extensionThreshold`, with
`extensionThreshold = event.extension_threshold || 60` and
`extensionTime = event.extension_time || 120`).  `timeRemaining` is
`(endTime - now)/1000` as an exact rational, so the window test on the
millisecond difference `rem` is `0 < rem ∧ rem ≤ threshold * 1000`.
Returns the outcome together with the resulting `bids` table: the
`INSERT` has no uniqueness constraint, so acceptance always appends.
When the event `SELECT` returns no row (`event = none`), the `INSERT`
necessarily violates `bids.event_id REFERENCES events(id)`
(`db/migrations.js`), so the handler's `catch` answers 500 with nothing
inserted and nothing emitted. -/
def postEventBids (bids : List BidRow) (eventId lineItemId userId freshId : Nat)
    (amount : JSVal) (event : Option EventRow) (nowMs : Int) :
    BidSubmission × List BidRow :=
  if jsTruthy amount = false ∨ jsIsNaN amount = true then
    ({ status := 400, inserted := false, newEndTime := none,
       extendedEmit := none, bidEmit := false }, bids)
  else
    let row : BidRow :=
      { id := freshId, eventId := eventId, lineItemId := lineItemId,
        userId := userId, amount := (jsToNumber amount).getD 0,
        createdAt := nowMs }
    let inserted := bids ++ [row]
    match event with
    | none =>
      ({ status := 500, inserted := false, newEndTime := none,
         extendedEmit := none, bidEmit := false }, bids)
    | some e =>
      match e.auction_end_time with
      | none => (acceptedPlain, inserted)
      | some endMs =>
        if e.type = "paused" then (acceptedPlain, inserted)
        else
          let rem := endMs - nowMs
          let threshold := jsOr e.extension_threshold 60
          let extTime := jsOr e.extension_time 120
          if 0 < rem ∧ rem ≤ threshold * 1000 then
            ({ status := 200, inserted := true,
               newEndTime := some (nowMs + extTime * 1000),
               extendedEmit := some (nowMs + extTime * 1000),
               bidEmit := true }, inserted)
          else (acceptedPlain, inserted)

/-- `router.patch("/events/:id/pause")`: when `auction_end_time` is set,
store `type = 'paused'`, `paused_time_remaining = max(0,
floor((endTime - now)/1000))` and `elapsed_seconds = elapsed_seconds || 0`;
the `UPDATE` never touches `auction_end_time`.  When no end time is set,
only `type` changes. -/
def pauseEvent (e : EventRow) (nowMs : Int) : EventRow :=
  match e.auction_end_time with
  | some endMs =>
    { e with type := "paused",
             paused_time_remaining := some (max 0 ((endMs - nowMs).fdiv 1000)),
             elapsed_seconds := some (jsOrZero e.elapsed_seconds) }
  | none => { e with type := "paused" }

/-- `router.patch("/events/:id/resume")`: when `paused_time_remaining` is
set, store `type = 'open'`, `auction_end_time = now + remaining * 1000`
and clear the snapshot; otherwise only `type` changes. -/
def resumeEvent (e : EventRow) (nowMs : Int) : EventRow :=
  match e.paused_time_remaining with
  | some r =>
    { e with type := "open",
             auction_end_time := some (nowMs + r * 1000),
             paused_time_remaining := none }
  | none => { e with type := "open" }

/-- Seconds remaining shown by the ticking clock at instant `nowMs`:
`max(0, floor((auction_end_time - now)/1000))`, `none` when no deadline. -/
def secondsRemainingAt (e : EventRow) (nowMs : Int) : Option Int :=
  e.auction_end_time.map (fun endMs => max 0 ((endMs - nowMs).fdiv 1000))

/-- The spec's Event timing invariant, in its status-qualified form:
exactly one of {deadline set and not paused} and {snapshot set and
paused}. -/
def timingInv (e : EventRow) : Prop :=
  Xor'
    (e.auction_end_time.isSome = true ∧ e.type ≠ "paused")
    (e.paused_time_remaining.isSome = true ∧ e.type = "paused")

instance (e : EventRow) : Decidable (timingInv e) := by
  unfold timingInv Xor'
  infer_instance

/-- The module-level `activeTimers` map of
`sockets/socket-auction-timer.js`, modelled as the list of event ids that
currently own a ticking `setInterval` process (one list entry per created
interval). -/
structure TimerRegistry where
  timers : List Nat
deriving DecidableEq

/-- `startAuctionTimer(eventId)`: return immediately when
`activeTimers.has(eventId)`; otherwise create one interval and register
it. -/
def startAuctionTimer (eventId : Nat) (s : TimerRegistry) : TimerRegistry :=
  if eventId ∈ s.timers then s else { timers := eventId :: s.timers }

/-- `stopAuctionTimer(eventId)`: clear and deregister the interval if
present. -/
def stopAuctionTimer (eventId : Nat) (s : TimerRegistry) : TimerRegistry :=
  { timers := s.timers.filter (fun x => x ≠ eventId) }

/-- The `time_sync` payload
`{secondsRemaining, isPaused, endTime, elapsedSeconds}`. -/
structure TimeSyncMsg where
  secondsRemaining : Option Int
  isPaused : Bool
  endTime : Option Int
  elapsedSeconds : Option Int
deriving DecidableEq

/-- Observable outcome of one execution of the `setInterval` callback of
`startAuctionTimer`: whether `console.error` ran (the `catch` branch),
whether `stopAuctionTimer` was called, the `elapsed_seconds` value
written by the tick's only `UPDATE` (`none` when nothing was written),
and the `time_sync` message broadcast (`none` when none was). -/
structure TickResult where
  logsError : Bool
  stopsTimer : Bool
  dbWrite : Option Int
  broadcast : Option TimeSyncMsg
deriving DecidableEq

/-- One execution of the per-second tick callback in
`sockets/socket-auction-timer.js`.  `row` is the event row the opening
`SELECT` returns (`none` when `rows.length === 0`); `selectFails` and
`updateFails` say whether that `SELECT`, respectively the
`UPDATE events SET elapsed_seconds = ...`, throws.  A throw jumps to the
`catch`, which only logs — in particular it neither broadcasts nor stops
the interval.  While paused the callback uses the frozen
`paused_time_remaining`, performs no write, and the stop test
`secondsRemaining === 0 && !isPaused` can never fire. -/
def runTick (row : Option EventRow) (selectFails updateFails : Bool)
    (nowMs : Int) : TickResult :=
  if selectFails then
    { logsError := true, stopsTimer := false, dbWrite := none, broadcast := none }
  else
    match row with
    | none =>
      { logsError := false, stopsTimer := true, dbWrite := none, broadcast := none }
    | some e =>
      let isPaused := e.type = "paused"
      match e.auction_end_time with
      | none =>
        { logsError := false, stopsTimer := false, dbWrite := none,
          broadcast := some { secondsRemaining := none, isPaused := isPaused,
                              endTime := none, elapsedSeconds := none } }
      | some endMs =>
        if isPaused then
          { logsError := false, stopsTimer := false, dbWrite := none,
            broadcast := some { secondsRemaining := e.paused_time_remaining,
                                isPaused := true, endTime := some endMs,
                                elapsedSeconds := some (jsOrZero e.elapsed_seconds) } }
        else
          let elapsed := jsOrZero e.elapsed_seconds + 1
          if updateFails then
            { logsError := true, stopsTimer := false, dbWrite := none, broadcast := none }
          else
            let rem := max 0 ((endMs - nowMs).fdiv 1000)
            { logsError := false, stopsTimer := decide (rem = 0),
              dbWrite := some elapsed,
              broadcast := some { secondsRemaining := some rem, isPaused := false,
                                  endTime := some endMs,
                                  elapsedSeconds := some elapsed } }

/-- `WHERE event_id = $1 AND line_item_id = $2`. -/
def bidsFor (table : List BidRow) (eventId lineItemId : Nat) : List BidRow :=
  table.filter (fun b => b.eventId = eventId ∧ b.lineItemId = lineItemId)

/-- Of two rows, the one with the later `created_at` (the earlier row of
the list wins a timestamp tie, resolving the tie Postgres leaves
unspecified). -/
def laterBid (a b : BidRow) : BidRow :=
  if a.createdAt < b.createdAt then b else a

/-- The most recent bid a user has among the given rows
(`ORDER BY created_at DESC LIMIT 1`). -/
def latestBidOf (rows : List BidRow) (u : Nat) : Option BidRow :=
  match rows.filter (fun b => b.userId = u) with
  | [] => none
  | b :: rest => some (rest.foldl laterBid b)

/-- The distinct values of a list in order of first appearance, with an
accumulator of already-seen values. -/
def firstUsersAux (seen : List Nat) : List Nat → List Nat
  | [] => []
  | u :: rest =>
    if u ∈ seen then firstUsersAux seen rest
    else u :: firstUsersAux (seen ++ [u]) rest

/-- The distinct values of a list in order of first appearance. -/
def firstUsers (l : List Nat) : List Nat :=
  firstUsersAux [] l

/-- `SELECT DISTINCT ON (user_id) user_id, amount ... ORDER BY user_id,
created_at DESC`: one row per distinct user, namely that user's most
recent bid. -/
def distinctOnLatest (rows : List BidRow) : List BidRow :=
  (firstUsers (rows.map (fun b => b.userId))).filterMap (latestBidOf rows)

/-- The rank decoration of the bidder branch of
`router.get("/events/:id/bids")`: `COUNT(*) + 1` over the
`DISTINCT ON (user_id)` latest bids whose `amount` is strictly below the
decorated bid's amount. -/
def bidderRankQuery (table : List BidRow) (eventId lineItemId : Nat)
    (x : Int) : Nat :=
  1 + ((distinctOnLatest (bidsFor table eventId lineItemId)).filter
        (fun b => b.amount < x)).length

/-- The `COALESCE(latest own bid, opening_bid, 999999999)` reference
amount of `router.get("/events/:id/line-items/:lineItemId/rank")`. -/
def coalescedAmount (table : List BidRow) (eventId lineItemId userId : Nat)
    (openingBid : Option Int) : Int :=
  match latestBidOf (bidsFor table eventId lineItemId |>.filter
          (fun b => b.userId = userId)) userId with
  | some b => b.amount
  | none =>
    match openingBid with
    | some o => o
    | none => 999999999

/-- `router.get("/events/:id/line-items/:lineItemId/rank")`:
`COUNT(*) + 1` over ALL bid rows of the line item whose amount is
strictly below the coalesced reference amount — every row counts, not
one row per user. -/
def lineItemRankQuery (table : List BidRow) (eventId lineItemId userId : Nat)
    (openingBid : Option Int) : Nat :=
  1 + ((bidsFor table eventId lineItemId).filter
        (fun b => b.amount < coalescedAmount table eventId lineItemId userId openingBid)).length

/-- Whether a user's most recent bid among the rows is strictly below
`x`. -/
def latestBelow (rows : List BidRow) (u : Nat) (x : Int) : Bool :=
  match latestBidOf rows u with
  | some b => b.amount < x
  | none => false

/-- Modelled from the spec: `rank(eventId, lineItemId, amount) =
1 + count(distinct users whose most-recent bid on this lineItem is
strictly less than amount)`. -/
def specRank (table : List BidRow) (eventId lineItemId : Nat) (x : Int) : Nat :=
  1 + (((bidsFor table eventId lineItemId).map (fun b => b.userId)).toFinset.filter
        (fun u => latestBelow (bidsFor table eventId lineItemId) u x = true)).card

/-- A JS string as its sequence of UTF-16 code units; `display_name`
pseudonyms are compared by this representation. -/
structure JSStr where
  units : List Nat
deriving DecidableEq

/-- Code units of an ASCII Lean string literal. -/
def strUnits (s : String) : List Nat :=
  s.data.map Char.toNat

/-- The pseudonym `"Company " + String.fromCharCode(65 + k)`;
`String.fromCharCode` truncates its argument to an unsigned 16-bit code
unit, hence the `% 65536`. -/
def companyLabel (k : Nat) : JSStr :=
  ⟨strUnits "Company " ++ [(65 + k) % 65536]⟩

/-- Lookup in the `nameMap` object (association by bidder id). -/
def findLabel (u : Nat) : List (Nat × JSStr) → Option JSStr
  | [] => none
  | (v, s) :: rest => if v = u then some s else findLabel u rest

/-- The masking loop of the manager branch of
`router.get("/events/:id/bids")` for a sealed, unrevealed event: walk
the rendered rows; a bidder id not yet in `nameMap` is assigned
`Company ${String.fromCharCode(65 + counter++)}`; every row is
decorated with its bidder's mapped pseudonym. -/
def maskGo (nameMap : List (Nat × JSStr)) (counter : Nat) :
    List BidRow → List (BidRow × JSStr)
  | [] => []
  | b :: rest =>
    match findLabel b.userId nameMap with
    | some lbl => (b, lbl) :: maskGo nameMap counter rest
    | none =>
      (b, companyLabel counter) ::
        maskGo (nameMap ++ [(b.userId, companyLabel counter)]) (counter + 1) rest

/-- Sealed masking of one rendered result set, starting from the empty
`nameMap` and `counter = 0`. -/
def maskBids (rows : List BidRow) : List (BidRow × JSStr) :=
  maskGo [] 0 rows

/-- Position of a value in a list (length of the list when absent). -/
def idxIn (u : Nat) : List Nat → Nat
  | [] => 0
  | v :: rest => if v = u then 0 else idxIn u rest + 1

/-- `(b, companyLabel k), (b, companyLabel (k+1)), ...` down a list. -/
def withLabels (k : Nat) : List BidRow → List (BidRow × JSStr)
  | [] => []
  | b :: rest => (b, companyLabel k) :: withLabels (k + 1) rest

/-- The `nameMap` contents after the users of `l` have been assigned the
labels `companyLabel k, companyLabel (k+1), ...` in order. -/
def labelledFrom (k : Nat) : List Nat → List (Nat × JSStr)
  | [] => []
  | v :: rest => (v, companyLabel k) :: labelledFrom (k + 1) rest

lemma labelledFrom_append (l1 : List Nat) :
    ∀ (l2 : List Nat) (k : Nat),
      labelledFrom k (l1 ++ l2) = labelledFrom k l1 ++ labelledFrom (k + l1.length) l2 := by
  induction l1 with
  | nil => intro l2 k; simp [labelledFrom]
  | cons v rest ih =>
    intro l2 k
    simp only [List.cons_append, labelledFrom, List.append_eq, List.length_cons]
    rw [ih l2 (k + 1), show k + (rest.length + 1) = k + 1 + rest.length from by omega]

lemma findLabel_labelledFrom_not_mem (u : Nat) :
    ∀ (l : List Nat) (k : Nat), u ∉ l → findLabel u (labelledFrom k l) = none := by
  intro l
  induction l with
  | nil => intro k _; rfl
  | cons v rest ih =>
    intro k hu
    have hvu : v ≠ u := fun h => hu (by simp [h])
    simp only [labelledFrom, findLabel, if_neg hvu]
    exact ih (k + 1) (fun h => hu (by simp [h]))

lemma findLabel_labelledFrom_mem (u : Nat) :
    ∀ (l : List Nat) (k : Nat), u ∈ l →
      findLabel u (labelledFrom k l) = some (companyLabel (k + idxIn u l)) := by
  intro l
  induction l with
  | nil => intro k h; simp at h
  | cons v rest ih =>
    intro k hu
    by_cases hvu : v = u
    · simp [labelledFrom, findLabel, hvu, idxIn]
    · have hm : u ∈ rest := by
        rcases List.mem_cons.mp hu with h | h
        · exact absurd h.symm hvu
        · exact h
      simp only [labelledFrom, findLabel, if_neg hvu, idxIn, ih (k + 1) hm]
      rw [show k + 1 + idxIn u rest = k + (idxIn u rest + 1) from by omega]

lemma idxIn_append_left (u : Nat) :
    ∀ l1 l2 : List Nat, u ∈ l1 → idxIn u (l1 ++ l2) = idxIn u l1 := by
  intro l1
  induction l1 with
  | nil => intro l2 h; simp at h
  | cons v rest ih =>
    intro l2 hu
    by_cases hvu : v = u
    · simp [idxIn, hvu]
    · have hm : u ∈ rest := by
        rcases List.mem_cons.mp hu with h | h
        · exact absurd h.symm hvu
        · exact h
      simp [idxIn, hvu, ih l2 hm]

lemma idxIn_append_not_mem (u : Nat) :
    ∀ l1 l2 : List Nat, u ∉ l1 → idxIn u (l1 ++ l2) = l1.length + idxIn u l2 := by
  intro l1
  induction l1 with
  | nil => intro l2 _; simp [idxIn]
  | cons v rest ih =>
    intro l2 hu
    have hvu : v ≠ u := fun h => hu (by simp [h])
    simp only [List.cons_append, idxIn, if_neg hvu, List.length_cons, List.append_eq]
    rw [ih l2 (fun h => hu (by simp [h]))]
    omega

lemma idxIn_lt_length (u : Nat) :
    ∀ l : List Nat, u ∈ l → idxIn u l < l.length := by
  intro l
  induction l with
  | nil => intro h; simp at h
  | cons v rest ih =>
    intro hu
    by_cases hvu : v = u
    · simp [idxIn, hvu]
    · have hm : u ∈ rest := by
        rcases List.mem_cons.mp hu with h | h
        · exact absurd h.symm hvu
        · exact h
      simp only [idxIn, if_neg hvu, List.length_cons]
      exact Nat.succ_lt_succ (ih hm)

lemma idxIn_inj (u v : Nat) :
    ∀ l : List Nat, u ∈ l → v ∈ l → idxIn u l = idxIn v l → u = v := by
  intro l
  induction l with
  | nil => intro h; simp at h
  | cons w rest ih =>
    intro hu hv heq
    by_cases hwu : w = u <;> by_cases hwv : w = v
    · exact hwu ▸ hwv
    · simp only [idxIn, if_pos hwu, if_neg hwv] at heq
      exact absurd heq.symm (Nat.succ_ne_zero _)
    · simp only [idxIn, if_neg hwu, if_pos hwv] at heq
      exact absurd heq (Nat.succ_ne_zero _)
    · have hmu : u ∈ rest := by
        rcases List.mem_cons.mp hu with h | h
        · exact absurd h.symm hwu
        · exact h
      have hmv : v ∈ rest := by
        rcases List.mem_cons.mp hv with h | h
        · exact absurd h.symm hwv
        · exact h
      simp only [idxIn, if_neg hwu, if_neg hwv, Nat.add_right_cancel_iff] at heq
      exact ih hmu hmv heq

lemma companyLabel_inj (i j : Nat) (hi : i < 65536) (hj : j < 65536)
    (h : companyLabel i = companyLabel j) : i = j := by
  have hu := congrArg JSStr.units h
  simp only [companyLabel] at hu
  have h2 : ((65 + i) % 65536 : Nat) = (65 + j) % 65536 := by
    have := List.append_inj_right hu rfl
    simpa using this
  omega

/-- Characterization of the sealed-masking loop: starting from a
`nameMap` that already labels the users of `pre` in order, every
rendered row is decorated with the label of its bidder's first
appearance among `pre` followed by the remaining fresh bidders in order
of first appearance. -/
lemma maskGo_spec (bids : List BidRow) :
    ∀ pre : List Nat,
      maskGo (labelledFrom 0 pre) pre.length bids
        = bids.map (fun b =>
            (b, companyLabel (idxIn b.userId
                  (pre ++ firstUsersAux pre (bids.map (fun z => z.userId)))))) := by
  induction bids with
  | nil => intro pre; simp [maskGo, firstUsersAux]
  | cons b rest ih =>
    intro pre
    by_cases hu : b.userId ∈ pre
    · have hf := findLabel_labelledFrom_mem b.userId pre 0 hu
      simp only [maskGo, hf, List.map_cons, firstUsersAux, if_pos hu, ih pre]
      rw [idxIn_append_left _ _ _ hu, Nat.zero_add]
    · have hf := findLabel_labelledFrom_not_mem b.userId pre 0 hu
      have hm : labelledFrom 0 pre ++ [(b.userId, companyLabel pre.length)]
          = labelledFrom 0 (pre ++ [b.userId]) := by
        rw [labelledFrom_append]
        simp [labelledFrom]
      simp only [maskGo, hf, hm,
        show pre.length + 1 = (pre ++ [b.userId]).length from by simp,
        ih (pre ++ [b.userId]), List.map_cons, firstUsersAux, if_neg hu]
      rw [List.append_assoc, List.singleton_append,
        idxIn_append_not_mem _ _ _ hu]
      simp [idxIn]

/-- `maskBids` decorates each row with the label of its bidder's first
appearance in the rendered set. -/
lemma maskBids_spec (rows : List BidRow) :
    maskBids rows
      = rows.map (fun b =>
          (b, companyLabel (idxIn b.userId (firstUsers (rows.map (fun z => z.userId)))))) := by
  have h := maskGo_spec rows []
  simpa [maskBids, firstUsers, labelledFrom] using h

lemma mem_firstUsersAux (u : Nat) (l : List Nat) :
    ∀ seen : List Nat, u ∈ firstUsersAux seen l ↔ (u ∈ l ∧ u ∉ seen) := by
  induction l with
  | nil => intro seen; simp [firstUsersAux]
  | cons v rest ih =>
    intro seen
    by_cases hv : v ∈ seen
    · simp only [firstUsersAux, if_pos hv, ih seen, List.mem_cons]
      by_cases huv : u = v
      · subst huv; simp [hv]
      · simp [huv]
    · simp only [firstUsersAux, if_neg hv, List.mem_cons, ih (seen ++ [v]),
        List.mem_append, List.mem_singleton]
      by_cases huv : u = v
      · subst huv; simp [hv]
      · simp [huv]

lemma nodup_firstUsersAux (l : List Nat) :
    ∀ seen : List Nat, (firstUsersAux seen l).Nodup := by
  induction l with
  | nil => intro seen; simp [firstUsersAux]
  | cons v rest ih =>
    intro seen
    by_cases hv : v ∈ seen
    · simpa [firstUsersAux, hv] using ih seen
    · simp only [firstUsersAux, if_neg hv]
      rw [List.nodup_cons]
      refine ⟨fun hmem => ?_, ih (seen ++ [v])⟩
      have := (mem_firstUsersAux v rest (seen ++ [v])).mp hmem
      exact this.2 (List.mem_append_right _ (by simp))

lemma maskGo_length (bids : List BidRow) :
    ∀ (nameMap : List (Nat × JSStr)) (k : Nat),
      (maskGo nameMap k bids).length = bids.length := by
  induction bids with
  | nil => intro nameMap k; rfl
  | cons b rest ih =>
    intro nameMap k
    simp only [maskGo]
    split <;> simp [ih]

lemma maskBids_length (rows : List BidRow) :
    (maskBids rows).length = rows.length :=
  maskGo_length rows [] 0

lemma findLabel_append_none (u : Nat) :
    ∀ l1 l2 : List (Nat × JSStr), findLabel u l1 = none →
      findLabel u (l1 ++ l2) = findLabel u l2 := by
  intro l1
  induction l1 with
  | nil => intro l2 _; rfl
  | cons p rest ih =>
    intro l2 h
    by_cases hp : p.1 = u
    · simp [findLabel, hp] at h
    · simp only [findLabel, if_neg hp] at h
      simpa [findLabel, hp] using ih l2 h

lemma maskGo_nodupUsers (bids : List BidRow) :
    ∀ (nameMap : List (Nat × JSStr)) (k : Nat),
      (bids.map (fun z => z.userId)).Nodup →
      (∀ b ∈ bids, findLabel b.userId nameMap = none) →
      maskGo nameMap k bids = withLabels k bids := by
  induction bids with
  | nil => intro nameMap k _ _; rfl
  | cons b rest ih =>
    intro nameMap k hnd hnone
    have hb := hnone b (by simp)
    simp only [maskGo, hb, withLabels]
    congr 1
    have hndr : (rest.map (fun z => z.userId)).Nodup := by
      simp only [List.map_cons, List.nodup_cons] at hnd
      exact hnd.2
    have hhead : b.userId ∉ rest.map (fun z => z.userId) := by
      simp only [List.map_cons, List.nodup_cons] at hnd
      exact hnd.1
    apply ih _ _ hndr
    intro b2 hb2
    rw [findLabel_append_none _ _ _ (hnone b2 (by simp [hb2]))]
    have hne : b.userId ≠ b2.userId := by
      intro he
      exact hhead (he ▸ List.mem_map_of_mem _ hb2)
    simp [findLabel, hne]

lemma withLabels_length (bids : List BidRow) :
    ∀ k : Nat, (withLabels k bids).length = bids.length := by
  induction bids with
  | nil => intro k; rfl
  | cons b rest ih => intro k; simp [withLabels, ih]

lemma withLabels_get (bids : List BidRow) :
    ∀ (k i : Nat) (h : i < bids.length),
      (withLabels k bids).get ⟨i, by rw [withLabels_length]; exact h⟩
        = (bids.get ⟨i, h⟩, companyLabel (k + i)) := by
  induction bids with
  | nil => intro k i h; simp at h
  | cons b rest ih =>
    intro k i h
    cases i with
    | zero => simp [withLabels]
    | succ j =>
      have hj : j < rest.length := Nat.lt_of_succ_lt_succ h
      have := ih (k + 1) j hj
      simp only [withLabels, List.get_cons_succ]
      rw [this, show k + (j + 1) = k + 1 + j from by omega]

/-- C6 (amended): within one rendered result set of a sealed
(`revealBidders=false`) event, each bid receives the sequential label of
its bidder's first appearance (`Company <fromCharCode(65 + index)>`),
so bids of one user always share a pseudonym; and as long as the result
set has at most 2^16 distinct bidders, two different users never share
one.  The 2^16 bound is forced by JS `String.fromCharCode`, which
truncates `65 + counter` to 16 bits — see the counterexample. -/
theorem c6_amended (rows : List BidRow) :
    maskBids rows
      = rows.map (fun b =>
          (b, companyLabel (idxIn b.userId (firstUsers (rows.map (fun z => z.userId))))))
    ∧ (∀ p ∈ maskBids rows, ∀ q ∈ maskBids rows,
        p.1.userId = q.1.userId → p.2 = q.2)
    ∧ ((firstUsers (rows.map (fun z => z.userId))).length ≤ 65536 →
        ∀ p ∈ maskBids rows, ∀ q ∈ maskBids rows,
          p.1.userId ≠ q.1.userId → p.2 ≠ q.2) := by
  refine ⟨maskBids_spec rows, ?_, ?_⟩
  · intro p hp q hq huid
    rw [maskBids_spec rows] at hp hq
    obtain ⟨b1, _, rfl⟩ := List.mem_map.mp hp
    obtain ⟨b2, _, rfl⟩ := List.mem_map.mp hq
    simp only at huid ⊢
    rw [huid]
  · intro hcard p hp q hq huid
    rw [maskBids_spec rows] at hp hq
    obtain ⟨b1, hb1, rfl⟩ := List.mem_map.mp hp
    obtain ⟨b2, hb2, rfl⟩ := List.mem_map.mp hq
    simp only at huid ⊢
    intro hlbl
    have hm1 : b1.userId ∈ firstUsers (rows.map (fun z => z.userId)) := by
      rw [firstUsers, mem_firstUsersAux]
      exact ⟨List.mem_map_of_mem _ hb1, by simp⟩
    have hm2 : b2.userId ∈ firstUsers (rows.map (fun z => z.userId)) := by
      rw [firstUsers, mem_firstUsersAux]
      exact ⟨List.mem_map_of_mem _ hb2, by simp⟩
    have hi1 := idxIn_lt_length _ _ hm1
    have hi2 := idxIn_lt_length _ _ hm2
    have heq := companyLabel_inj _ _ (lt_of_lt_of_le hi1 hcard)
      (lt_of_lt_of_le hi2 hcard) hlbl
    exact huid (idxIn_inj _ _ _ hm1 hm2 heq)

/-- A small sealed result set: users 10, 20, 10. -/
def cRows6 : List BidRow :=
  [{ id := 1, eventId := 1, lineItemId := 1, userId := 10, amount := 100, createdAt := 1 },
   { id := 2, eventId := 1, lineItemId := 1, userId := 20, amount := 90, createdAt := 2 },
   { id := 3, eventId := 1, lineItemId := 1, userId := 10, amount := 80, createdAt := 3 }]

/-- C6 witness: on the concrete result set the two bids of user 10 share
their pseudonym and differ from user 20's. -/
theorem c6_witness :
    ((maskBids cRows6).get ⟨0, by rw [maskBids_length]; decide⟩).2
      = ((maskBids cRows6).get ⟨2, by rw [maskBids_length]; decide⟩).2
    ∧ ((maskBids cRows6).get ⟨0, by rw [maskBids_length]; decide⟩).2
      ≠ ((maskBids cRows6).get ⟨1, by rw [maskBids_length]; decide⟩).2 :=
  ⟨(c6_amended cRows6).2.1 _ (List.get_mem _ _ _) _ (List.get_mem _ _ _) (by decide),
   (c6_amended cRows6).2.2 (by decide) _ (List.get_mem _ _ _) _ (List.get_mem _ _ _) (by decide)⟩

/-- The bid of the i-th distinct bidder of the adversarial sealed result
set. -/
def mkMaskBid (i : Nat) : BidRow :=
  { id := i, eventId := 1, lineItemId := 1, userId := i, amount := 100, createdAt := 0 }

/-- 65537 bids by 65537 distinct bidders in one rendered result set. -/
def cBids6 : List BidRow :=
  (List.range 65537).map mkMaskBid

lemma cBids6_users : cBids6.map (fun z => z.userId) = List.range 65537 := by
  rw [cBids6, List.map_map,
    show ((fun z : BidRow => z.userId) ∘ mkMaskBid) = id from funext (fun i => rfl),
    List.map_id]

lemma cBids6_length : cBids6.length = 65537 := by
  simp [cBids6]

lemma cBids6_get (i : Nat) (h : i < cBids6.length) :
    cBids6.get ⟨i, h⟩ = mkMaskBid i := by
  have h2 : i < 65537 := by rwa [cBids6_length] at h
  simp [cBids6, List.get_eq_getElem]

lemma get_congr_list {α : Type} (l1 l2 : List α) (h : l1 = l2) (i : Nat)
    (h1 : i < l1.length) (h2 : i < l2.length) :
    l1.get ⟨i, h1⟩ = l2.get ⟨i, h2⟩ := by
  subst h
  rfl

lemma maskBids_cBids6 : maskBids cBids6 = withLabels 0 cBids6 := by
  apply maskGo_nodupUsers
  · rw [cBids6_users]
    exact List.nodup_range 65537
  · intro b _
    rfl

/-- C6 counterexample: with 65537 distinct bidders in one rendered
result set, the first bidder (user 0) and the 65537-th (user 65536) both
receive the pseudonym `Company A`, because
`String.fromCharCode(65 + 65536)` truncates to `String.fromCharCode
(65)` — two different users share a pseudonym within one result set,
refuting the claim as stated. -/
theorem c6_counterexample :
    ((maskBids cBids6).get ⟨0, by rw [maskBids_length, cBids6_length]; omega⟩).1.userId
      ≠ ((maskBids cBids6).get ⟨65536, by rw [maskBids_length, cBids6_length]; omega⟩).1.userId
    ∧ ((maskBids cBids6).get ⟨0, by rw [maskBids_length, cBids6_length]; omega⟩).2
      = ((maskBids cBids6).get ⟨65536, by rw [maskBids_length, cBids6_length]; omega⟩).2 := by
  have h0 : (0 : Nat) < cBids6.length := by rw [cBids6_length]; omega
  have h65536 : (65536 : Nat) < cBids6.length := by rw [cBids6_length]; omega
  have w0 : (0 : Nat) < (withLabels 0 cBids6).length := by
    rw [withLabels_length]; exact h0
  have w65536 : (65536 : Nat) < (withLabels 0 cBids6).length := by
    rw [withLabels_length]; exact h65536
  have e0 : (maskBids cBids6).get ⟨0, by rw [maskBids_length, cBids6_length]; omega⟩
      = (mkMaskBid 0, companyLabel (0 + 0)) := by
    rw [get_congr_list _ _ maskBids_cBids6 0 _ w0, withLabels_get cBids6 0 0 h0,
      cBids6_get 0 h0]
  have e1 : (maskBids cBids6).get ⟨65536, by rw [maskBids_length, cBids6_length]; omega⟩
      = (mkMaskBid 65536, companyLabel (0 + 65536)) := by
    rw [get_congr_list _ _ maskBids_cBids6 65536 _ w65536,
      withLabels_get cBids6 0 65536 h65536, cBids6_get 65536 h65536]
  rw [e0, e1]
  exact ⟨by decide, by decide⟩

lemma foldl_laterBid_prop (P : BidRow → Prop) :
    ∀ (l : List BidRow) (a : BidRow), P a → (∀ c ∈ l, P c) →
      P (l.foldl laterBid a) := by
  intro l
  induction l with
  | nil => intro a ha _; exact ha
  | cons c rest ih =>
    intro a ha hl
    apply ih
    · unfold laterBid
      split
      · exact hl c (List.mem_cons_self c rest)
      · exact ha
    · intro d hd
      exact hl d (List.mem_cons_of_mem c hd)

lemma latestBidOf_userId (rows : List BidRow) (u : Nat) (b : BidRow)
    (h : latestBidOf rows u = some b) : b.userId = u := by
  unfold latestBidOf at h
  split at h
  · exact absurd h (by simp)
  · rename_i b1 rest heq
    have hb : rest.foldl laterBid b1 = b := by injection h
    have h1 : ∀ c ∈ b1 :: rest, c.userId = u := by
      intro c hc
      rw [← heq] at hc
      simpa using List.of_mem_filter hc
    rw [← hb]
    exact foldl_laterBid_prop (fun z => z.userId = u) rest b1
      (h1 b1 (by simp)) (fun c hc => h1 c (by simp [hc]))

lemma latestBidOf_isSome (rows : List BidRow) (u : Nat)
    (h : ∃ b ∈ rows, b.userId = u) : ∃ c, latestBidOf rows u = some c := by
  obtain ⟨b, hb, hu⟩ := h
  have hmem : b ∈ rows.filter (fun z => decide (z.userId = u)) :=
    List.mem_filter.mpr ⟨hb, by simp [hu]⟩
  unfold latestBidOf
  split
  · rename_i heq
    rw [heq] at hmem
    simp at hmem
  · exact ⟨_, rfl⟩

lemma filterMapLatest_count (rows : List BidRow) (x : Int) :
    ∀ l : List Nat, (∀ u ∈ l, ∃ b ∈ rows, b.userId = u) →
      ((l.filterMap (latestBidOf rows)).filter (fun b => b.amount < x)).length
        = (l.filter (fun u => latestBelow rows u x)).length := by
  intro l
  induction l with
  | nil => intro _; simp
  | cons u rest ih =>
    intro hl
    obtain ⟨c, hc⟩ := latestBidOf_isSome rows u (hl u (by simp))
    have hrest : ∀ v ∈ rest, ∃ b ∈ rows, b.userId = v :=
      fun v hv => hl v (List.mem_cons_of_mem _ hv)
    have hlb : latestBelow rows u x = decide (c.amount < x) := by
      simp [latestBelow, hc]
    by_cases hcx : c.amount < x
    · simp [List.filterMap_cons, hc, List.filter_cons, hcx, hlb, ih hrest]
    · simp [List.filterMap_cons, hc, List.filter_cons, hcx, hlb, ih hrest]

/-- C3 (amended): the rank decoration of the bidder branch of
`GET /events/:id/bids` does compute the spec formula — `1 + #{distinct
users whose most recent bid on the line item is strictly below the
amount}`, each competing user counted at most once via their latest
bid — for every bids table, line item and amount.  (The line-item rank
endpoint does not; see the counterexample.) -/
theorem c3_amended (table : List BidRow) (eventId lineItemId : Nat) (x : Int) :
    bidderRankQuery table eventId lineItemId x = specRank table eventId lineItemId x := by
  unfold bidderRankQuery specRank distinctOnLatest
  congr 1
  have hmemfu : ∀ u ∈ firstUsers ((bidsFor table eventId lineItemId).map (fun b => b.userId)),
      ∃ b ∈ bidsFor table eventId lineItemId, b.userId = u := by
    intro u hu
    have hm : u ∈ (bidsFor table eventId lineItemId).map (fun b => b.userId) :=
      ((mem_firstUsersAux u _ []).mp hu).1
    obtain ⟨b, hb, hbu⟩ := List.mem_map.mp hm
    exact ⟨b, hb, hbu⟩
  rw [filterMapLatest_count _ x _ hmemfu]
  have hnd : (firstUsers ((bidsFor table eventId lineItemId).map (fun b => b.userId))).Nodup :=
    nodup_firstUsersAux _ []
  rw [← List.toFinset_card_of_nodup (hnd.filter (fun u => latestBelow (bidsFor table eventId lineItemId) u x))]
  congr 1
  ext u
  simp only [List.mem_toFinset, List.mem_filter, Finset.mem_filter,
    firstUsers, mem_firstUsersAux, List.not_mem_nil, not_false_iff, and_true]

/-- The concrete bids table refuting C3: on line item 1 of event 1,
user 2 has two bids (5 then 6) and user 1 has one bid of 10. -/
def cTable3 : List BidRow :=
  [{ id := 1, eventId := 1, lineItemId := 1, userId := 2, amount := 5, createdAt := 100 },
   { id := 2, eventId := 1, lineItemId := 1, userId := 2, amount := 6, createdAt := 200 },
   { id := 3, eventId := 1, lineItemId := 1, userId := 1, amount := 10, createdAt := 300 }]

/-- C3 counterexample: for user 1 (latest — and only — bid 10, so the
coalesced reference amount is 10), the line-item rank endpoint counts
BOTH of user 2's bids below 10 and answers 3, while the spec formula
(and the bids-route decoration) counts user 2 once via their latest bid
and answers 2 — the two rank-returning endpoints do not compute the same
value. -/
theorem c3_counterexample :
    lineItemRankQuery cTable3 1 1 1 none = 3
    ∧ specRank cTable3 1 1 10 = 2
    ∧ bidderRankQuery cTable3 1 1 10 = 2 := by
  decide

/-- C4 counterexample: pausing an open event with deadline 10000 ms at
now = 3000 ms stores the 7-second snapshot and flips the status, but the
`UPDATE` never touches `auction_end_time` — afterwards the row carries
BOTH an end time and a frozen snapshot, so "clears endAt" and "never has
both an active deadline and a frozen remaining-time snapshot" are false
of the code. -/
theorem c4_counterexample :
    (pauseEvent { type := "open", auction_end_time := some 10000,
                  elapsed_seconds := some 5 } 3000).auction_end_time = some 10000
    ∧ (pauseEvent { type := "open", auction_end_time := some 10000,
                    elapsed_seconds := some 5 } 3000).paused_time_remaining = some 7
    ∧ (pauseEvent { type := "open", auction_end_time := some 10000,
                    elapsed_seconds := some 5 } 3000).type = "paused" := by
  decide

/-- C4 (amended): pause captures `max(0, floor((endAt - now)/1000))`
into the snapshot, flips the status to paused and preserves a non-null
`elapsed_seconds`, but leaves `auction_end_time` untouched (the stale
deadline is retained); resume sets `endAt = now + snapshot` and clears
the snapshot.  The status-qualified invariant — exactly one of
{deadline set and not paused} and {snapshot set and paused} — is
preserved by both operations, but the stronger reading "the engine never
has both an active deadline and a frozen snapshot" fails (see the
counterexample). -/
theorem c4_amended (e : EventRow) (nowMs : Int) :
    (pauseEvent e nowMs).auction_end_time = e.auction_end_time
    ∧ (∀ m : Int, e.auction_end_time = some m →
        (pauseEvent e nowMs).paused_time_remaining = some (max 0 ((m - nowMs).fdiv 1000))
        ∧ (pauseEvent e nowMs).type = "paused")
    ∧ (∀ m v : Int, e.auction_end_time = some m → e.elapsed_seconds = some v →
        (pauseEvent e nowMs).elapsed_seconds = some v)
    ∧ (∀ r : Int, e.paused_time_remaining = some r →
        (resumeEvent e nowMs).auction_end_time = some (nowMs + r * 1000)
        ∧ (resumeEvent e nowMs).paused_time_remaining = none
        ∧ (resumeEvent e nowMs).type = "open")
    ∧ (timingInv e → timingInv (pauseEvent e nowMs) ∧ timingInv (resumeEvent e nowMs)) := by
  refine ⟨?_, ?_, ?_, ?_, ?_⟩
  · cases h : e.auction_end_time <;> simp [pauseEvent, h]
  · intro m hm
    simp [pauseEvent, hm]
  · intro m v hm hv
    simp [pauseEvent, hm, hv, jsOrZero, jsOr]
    omega
  · intro r hr
    simp [resumeEvent, hr]
  · intro hinv
    constructor
    · cases hend : e.auction_end_time with
      | some m =>
        simp [timingInv, Xor', pauseEvent, hend]
      | none =>
        rcases hinv with ⟨⟨ha, _⟩, _⟩ | ⟨⟨hb, _⟩, _⟩
        · rw [hend] at ha; simp at ha
        · simp [timingInv, Xor', pauseEvent, hend, hb]
    · cases hptr : e.paused_time_remaining with
      | some r =>
        simp [timingInv, Xor', resumeEvent, hptr]
      | none =>
        rcases hinv with ⟨⟨ha, _⟩, _⟩ | ⟨⟨hb, _⟩, _⟩
        · simp [timingInv, Xor', resumeEvent, hptr, ha]
        · rw [hptr] at hb; simp at hb

/-- C4 witness: the amended theorem evaluated on a concrete open event
with a deadline, plus its resume behaviour after the pause. -/
theorem c4_witness :
    (pauseEvent { type := "open", auction_end_time := some 10000,
                  elapsed_seconds := some 5 } 3000).auction_end_time
      = ({ type := "open", auction_end_time := some 10000,
           elapsed_seconds := some 5 } : EventRow).auction_end_time
    ∧ ((pauseEvent { type := "open", auction_end_time := some 10000,
                     elapsed_seconds := some 5 } 3000).paused_time_remaining
        = some (max 0 (((10000 : Int) - 3000).fdiv 1000))
      ∧ (pauseEvent { type := "open", auction_end_time := some 10000,
                      elapsed_seconds := some 5 } 3000).type = "paused")
    ∧ (pauseEvent { type := "open", auction_end_time := some 10000,
                    elapsed_seconds := some 5 } 3000).elapsed_seconds = some 5
    ∧ timingInv (pauseEvent { type := "open", auction_end_time := some 10000,
                              elapsed_seconds := some 5 } 3000)
    ∧ timingInv (resumeEvent { type := "open", auction_end_time := some 10000,
                               elapsed_seconds := some 5 } 3000) := by
  refine ⟨(c4_amended _ 3000).1, (c4_amended _ 3000).2.1 10000 rfl,
          (c4_amended _ 3000).2.2.1 10000 5 rfl rfl,
          ((c4_amended _ 3000).2.2.2.2 (by decide)).1,
          ((c4_amended _ 3000).2.2.2.2 (by decide)).2⟩

/-- C7: pausing an event with an active deadline at `t1` and resuming at
`t2` (no intervening bids touch the row) restores the clock exactly:
the seconds-remaining shown right after the resume equals the
seconds-remaining shown right before the pause — equality on the nose,
hence certainly within the claimed ±1 s tick granularity. -/
theorem c7_pause_resume (e : EventRow) (m t1 t2 : Int)
    (h : e.auction_end_time = some m) :
    secondsRemainingAt (resumeEvent (pauseEvent e t1) t2) t2
      = secondsRemainingAt e t1 := by
  simp only [pauseEvent, h, resumeEvent, secondsRemainingAt, Option.map]
  have h1000 : (1000 : Int) ≠ 0 := by norm_num
  have hc : (t2 + max 0 ((m - t1).fdiv 1000) * 1000 - t2) = max 0 ((m - t1).fdiv 1000) * 1000 := by
    ring
  rw [hc, Int.mul_fdiv_cancel _ h1000]
  rw [max_eq_right (le_max_left 0 ((m - t1).fdiv 1000))]

/-- C7 witness: a concrete pause/resume cycle (deadline 10500 ms, paused
at 3000 ms, resumed at 50000 ms) shows 7 s remaining on both sides. -/
theorem c7_witness :
    secondsRemainingAt
      (resumeEvent (pauseEvent { type := "open", auction_end_time := some 10500,
                                 elapsed_seconds := some 5 } 3000) 50000) 50000
      = secondsRemainingAt { type := "open", auction_end_time := some 10500,
                             elapsed_seconds := some 5 } 3000 :=
  c7_pause_resume _ 10500 3000 50000 rfl

/-- C8: `startAuctionTimer` is a no-op on an event that already owns a
timer, is idempotent, and never lets an event own more than one ticking
interval — any number of `join_event` calls spawn at most one timer. -/
theorem c8_timer_idempotent (eventId : Nat) (s : TimerRegistry) :
    (eventId ∈ s.timers → startAuctionTimer eventId s = s)
    ∧ startAuctionTimer eventId (startAuctionTimer eventId s) = startAuctionTimer eventId s
    ∧ (s.timers.count eventId ≤ 1 →
        (startAuctionTimer eventId s).timers.count eventId ≤ 1) := by
  by_cases h : eventId ∈ s.timers
  · refine ⟨fun _ => by simp [startAuctionTimer, h], ?_, fun hc => ?_⟩
    · simp [startAuctionTimer, h]
    · simpa [startAuctionTimer, h] using hc
  · refine ⟨fun hmem => absurd hmem h, ?_, fun hc => ?_⟩
    · simp [startAuctionTimer, h]
    · simp [startAuctionTimer, h, List.count_cons_self,
            List.count_eq_zero.mpr h]

/-- C8 witness: the theorem evaluated on a registry already holding a
timer for event 7. -/
theorem c8_witness :
    startAuctionTimer 7 { timers := [7] } = { timers := [7] }
    ∧ startAuctionTimer 7 (startAuctionTimer 7 { timers := [7] })
        = startAuctionTimer 7 { timers := [7] }
    ∧ (startAuctionTimer 7 { timers := [7] }).timers.count 7 ≤ 1 :=
  ⟨(c8_timer_idempotent 7 { timers := [7] }).1 (by decide),
   (c8_timer_idempotent 7 { timers := [7] }).2.1,
   (c8_timer_idempotent 7 { timers := [7] }).2.2 (by decide)⟩

/-- A running (non-paused) event row with a deadline, used as concrete
tick input. -/
def cOpenEvent : EventRow :=
  { type := "open", auction_end_time := some 10000, elapsed_seconds := some 4 }

/-- C9 counterexample: when the per-second `UPDATE events SET
elapsed_seconds = ...` throws, the `catch` only logs — the tick
broadcasts NOTHING for that second (the claim's "still broadcasts using
the last-known value" is false of the code); the interval itself is not
cleared. -/
theorem c9_counterexample :
    (runTick (some cOpenEvent) false true 3000).broadcast = none
    ∧ (runTick (some cOpenEvent) false true 3000).logsError = true
    ∧ (runTick (some cOpenEvent) false true 3000).stopsTimer = false
    ∧ (runTick (some cOpenEvent) false true 3000).dbWrite = none := by
  decide

/-- C9 (amended): a persistence error during the per-second update is
logged and the whole remainder of that tick is skipped — no store write,
no `time_sync` broadcast — while the interval loop keeps running (the
error path never clears the timer). -/
theorem c9_amended (e : EventRow) (m nowMs : Int)
    (hnp : e.type ≠ "paused") (hend : e.auction_end_time = some m) :
    runTick (some e) false true nowMs
      = { logsError := true, stopsTimer := false, dbWrite := none, broadcast := none } := by
  simp [runTick, hend, hnp]

/-- C9 witness: the amended theorem evaluated on a concrete running
event. -/
theorem c9_witness :
    runTick (some cOpenEvent) false true 3000
      = { logsError := true, stopsTimer := false, dbWrite := none, broadcast := none } :=
  c9_amended cOpenEvent 10000 3000 (by decide) rfl

/-- C10: a tick that reads a paused event (with a deadline present)
writes nothing to the store — `elapsed_seconds`, `auction_end_time` and
`paused_time_remaining` are all untouched — broadcasts a `time_sync`
whose `secondsRemaining` is exactly the stored frozen
`paused_time_remaining`, and never stops the clock, because the stop
branch requires `secondsRemaining === 0 && !isPaused`; this holds even
when the frozen remaining time is 0 and regardless of whether the
persistence layer would fail. -/
theorem c10_paused_tick (e : EventRow) (m nowMs : Int) (updateFails : Bool)
    (hp : e.type = "paused") (hend : e.auction_end_time = some m) :
    runTick (some e) false updateFails nowMs
      = { logsError := false, stopsTimer := false, dbWrite := none,
          broadcast := some { secondsRemaining := e.paused_time_remaining,
                              isPaused := true, endTime := some m,
                              elapsedSeconds := some (jsOrZero e.elapsed_seconds) } } := by
  simp [runTick, hp, hend]

/-- C10 witness: a paused tick with the frozen remaining time already at
0 still writes nothing, still reports the frozen 0, and still does not
stop the timer. -/
theorem c10_witness :
    runTick (some { type := "paused", auction_end_time := some 900000,
                    paused_time_remaining := some 0, elapsed_seconds := some 12 })
        false true 600000
      = { logsError := false, stopsTimer := false, dbWrite := none,
          broadcast := some { secondsRemaining := some 0, isPaused := true,
                              endTime := some 900000, elapsedSeconds := some 12 } } :=
  c10_paused_tick { type := "paused", auction_end_time := some 900000,
                    paused_time_remaining := some 0, elapsed_seconds := some 12 }
    900000 600000 true rfl rfl

/-- A paused event row with an active deadline, used as concrete input. -/
def cPausedEvent : EventRow :=
  { type := "paused", auction_end_time := some 900000,
    paused_time_remaining := some 30, elapsed_seconds := some 12 }

/-- C1 counterexample: submitting a bid with a valid amount on an event
whose `type` is `'paused'` is NOT rejected — the route inserts the bid
row and answers 200.  The route never consults the event's status before
the `INSERT`; `type !== 'paused'` only gates the extension check. -/
theorem c1_counterexample :
    (postEventBids [] 5 2 3 0 (JSVal.num 100) (some cPausedEvent) 600000).1.inserted = true
    ∧ (postEventBids [] 5 2 3 0 (JSVal.num 100) (some cPausedEvent) 600000).1.status = 200
    ∧ (postEventBids [] 5 2 3 0 (JSVal.num 100) (some cPausedEvent) 600000).2 ≠ [] := by
  decide

/-- C1 (amended): a bid with a valid amount submitted on a paused event
is accepted and its row appended exactly as on a running event; the
paused status only suppresses the anti-sniping extension (no
`auction_end_time` write, no `auction_extended` emit). -/
theorem c1_amended (bids : List BidRow) (eventId lineItemId userId freshId : Nat)
    (amount : JSVal) (e : EventRow) (nowMs : Int)
    (hok : jsTruthy amount = true) (hnan : jsIsNaN amount = false)
    (hp : e.type = "paused") :
    (postEventBids bids eventId lineItemId userId freshId amount (some e) nowMs).1.inserted = true
    ∧ (postEventBids bids eventId lineItemId userId freshId amount (some e) nowMs).1.status = 200
    ∧ (postEventBids bids eventId lineItemId userId freshId amount (some e) nowMs).1.newEndTime = none
    ∧ (postEventBids bids eventId lineItemId userId freshId amount (some e) nowMs).1.extendedEmit = none
    ∧ (postEventBids bids eventId lineItemId userId freshId amount (some e) nowMs).2
        = bids ++ [{ id := freshId, eventId := eventId, lineItemId := lineItemId,
                     userId := userId, amount := (jsToNumber amount).getD 0,
                     createdAt := nowMs }] := by
  cases hend : e.auction_end_time <;>
    simp [postEventBids, hok, hnan, hp, hend, acceptedPlain]

/-- C1 witness: the amended theorem evaluated on a concrete paused
event. -/
theorem c1_witness :
    (postEventBids [] 5 2 3 0 (JSVal.num 100) (some cPausedEvent) 600000).1.inserted = true
    ∧ (postEventBids [] 5 2 3 0 (JSVal.num 100) (some cPausedEvent) 600000).1.status = 200
    ∧ (postEventBids [] 5 2 3 0 (JSVal.num 100) (some cPausedEvent) 600000).1.newEndTime = none
    ∧ (postEventBids [] 5 2 3 0 (JSVal.num 100) (some cPausedEvent) 600000).1.extendedEmit = none
    ∧ (postEventBids [] 5 2 3 0 (JSVal.num 100) (some cPausedEvent) 600000).2
        = [] ++ [{ id := 0, eventId := 5, lineItemId := 2, userId := 3,
                   amount := 100, createdAt := 600000 }] :=
  c1_amended [] 5 2 3 0 (JSVal.num 100) cPausedEvent 600000 (by decide) (by decide) rfl

/-- An existing event row with no deadline configured, used as concrete
input for bid-validation claims (the `events` row exists, so the
`bids.event_id` foreign key is satisfiable). -/
def cEvent5 : EventRow :=
  { type := "open" }

/-- C5 counterexample: on an existing event, `-5` is not a positive
finite number, yet `!amount || isNaN(amount)` lets it through — the
route answers 200 and appends the row. -/
theorem c5_counterexample :
    (postEventBids [] 1 2 3 0 (JSVal.num (-5)) (some cEvent5) 0).1.status = 200
    ∧ (postEventBids [] 1 2 3 0 (JSVal.num (-5)) (some cEvent5) 0).1.inserted = true
    ∧ (postEventBids [] 1 2 3 0 (JSVal.num (-5)) (some cEvent5) 0).2
        = [{ id := 0, eventId := 1, lineItemId := 2, userId := 3,
             amount := -5, createdAt := 0 }] := by
  decide

/-- C5 (amended): the route rejects with 400 and inserts nothing exactly
when the amount is JS-falsy (0, empty, null, undefined) or coerces to
NaN (non-numeric input); every other amount — including negative
numbers — submitted on an existing event is accepted, and acceptance
always appends a fresh row to the `bids` table with no uniqueness
constraint.  When no `events` row exists, the `INSERT` violates the
`bids.event_id` foreign key and the route answers 500 with nothing
appended. -/
theorem c5_amended (bids : List BidRow) (eventId lineItemId userId freshId : Nat)
    (amount : JSVal) (e : EventRow) (nowMs : Int) :
    ((jsTruthy amount = false ∨ jsIsNaN amount = true) →
      (postEventBids bids eventId lineItemId userId freshId amount (some e) nowMs).1.status = 400
      ∧ (postEventBids bids eventId lineItemId userId freshId amount (some e) nowMs).1.inserted = false
      ∧ (postEventBids bids eventId lineItemId userId freshId amount (some e) nowMs).2 = bids)
    ∧ (jsTruthy amount = true → jsIsNaN amount = false →
      (postEventBids bids eventId lineItemId userId freshId amount (some e) nowMs).1.status = 200
      ∧ (postEventBids bids eventId lineItemId userId freshId amount (some e) nowMs).1.inserted = true
      ∧ (postEventBids bids eventId lineItemId userId freshId amount (some e) nowMs).2
          = bids ++ [{ id := freshId, eventId := eventId, lineItemId := lineItemId,
                       userId := userId, amount := (jsToNumber amount).getD 0,
                       createdAt := nowMs }])
    ∧ (jsTruthy amount = true → jsIsNaN amount = false →
      (postEventBids bids eventId lineItemId userId freshId amount none nowMs).1.status = 500
      ∧ (postEventBids bids eventId lineItemId userId freshId amount none nowMs).1.inserted = false
      ∧ (postEventBids bids eventId lineItemId userId freshId amount none nowMs).2 = bids) := by
  refine ⟨?_, ?_, ?_⟩
  · intro h
    simp [postEventBids, h]
  · intro hok hnan
    simp only [postEventBids, hok, hnan]
    norm_num
    split <;> try simp [acceptedPlain]
    split <;> try simp [acceptedPlain]
    split <;> simp [acceptedPlain]
  · intro hok hnan
    simp [postEventBids, hok, hnan]

/-- C5 witness: the three branches of the amended theorem at concrete
inputs — `0` is rejected, `-5` on an existing event is accepted and
appended even though an identical row is already present, and a valid
amount on a missing event answers 500 with nothing appended. -/
theorem c5_witness :
    ((postEventBids [] 1 2 3 0 (JSVal.num 0) (some cEvent5) 0).1.status = 400
      ∧ (postEventBids [] 1 2 3 0 (JSVal.num 0) (some cEvent5) 0).1.inserted = false
      ∧ (postEventBids [] 1 2 3 0 (JSVal.num 0) (some cEvent5) 0).2 = [])
    ∧ ((postEventBids [{ id := 9, eventId := 1, lineItemId := 2, userId := 3,
                         amount := -5, createdAt := 0 }] 1 2 3 9 (JSVal.num (-5))
          (some cEvent5) 0).1.status = 200
      ∧ (postEventBids [{ id := 9, eventId := 1, lineItemId := 2, userId := 3,
                          amount := -5, createdAt := 0 }] 1 2 3 9 (JSVal.num (-5))
          (some cEvent5) 0).1.inserted = true
      ∧ (postEventBids [{ id := 9, eventId := 1, lineItemId := 2, userId := 3,
                          amount := -5, createdAt := 0 }] 1 2 3 9 (JSVal.num (-5))
          (some cEvent5) 0).2
          = [{ id := 9, eventId := 1, lineItemId := 2, userId := 3,
               amount := -5, createdAt := 0 }]
            ++ [{ id := 9, eventId := 1, lineItemId := 2, userId := 3,
                  amount := -5, createdAt := 0 }])
    ∧ ((postEventBids [] 1 2 3 0 (JSVal.num 7) none 0).1.status = 500
      ∧ (postEventBids [] 1 2 3 0 (JSVal.num 7) none 0).1.inserted = false
      ∧ (postEventBids [] 1 2 3 0 (JSVal.num 7) none 0).2 = []) :=
  ⟨(c5_amended [] 1 2 3 0 (JSVal.num 0) cEvent5 0).1 (Or.inl (by decide)),
   (c5_amended [{ id := 9, eventId := 1, lineItemId := 2, userId := 3,
                  amount := -5, createdAt := 0 }] 1 2 3 9 (JSVal.num (-5)) cEvent5 0).2.1
     (by decide) (by decide),
   (c5_amended [] 1 2 3 0 (JSVal.num 7) cEvent5 0).2.2 (by decide) (by decide)⟩

/-- C2 counterexample: `normalizeInterval` can store a zero threshold
interval (`Math.round` of any input in (0, 0.5) is 0, and 0 > 0 fails
only the `num <= 0` guard for 0 itself — 0.3 rounds to `'0 seconds'`).
On an event whose stored `extensionThresholdSeconds` is 0, a bid 30 s
before the deadline has `secondsRemaining = 30 > 0 = threshold`, so the
claim says `endAt` is unchanged and nothing is broadcast — but the route
evaluates `event.extension_threshold || 60`, treats the window as 60 s,
rewrites `auction_end_time` to `now + 120000` ms and emits
`auction_extended`. -/
theorem c2_counterexample :
    (postEventBids [] 1 2 3 0 (JSVal.num 500)
      (some { type := "open", auction_end_time := some 30000,
              extension_threshold := some 0, extension_time := some 120 }) 0).1.newEndTime
      = some 120000
    ∧ (postEventBids [] 1 2 3 0 (JSVal.num 500)
      (some { type := "open", auction_end_time := some 30000,
              extension_threshold := some 0, extension_time := some 120 }) 0).1.extendedEmit
      = some 120000 := by
  decide

/-- C2 (amended): for an accepted bid on an event with a deadline and a
non-paused status, the extension window is governed by the EFFECTIVE
parameters `threshold = extension_threshold || 60` and
`extension = extension_time || 120` (a stored NULL or 0 falls back to
the default), not by the stored values themselves: if
`0 < secondsRemaining ≤ threshold`, `auction_end_time` is set to
`now + extension` and `auction_extended` carries that same new deadline;
if `secondsRemaining > threshold`, nothing is written and nothing is
emitted.  `secondsRemaining = (endMs - nowMs)/1000` exactly as a
rational, so `0 < secondsRemaining ∧ secondsRemaining ≤ th` is
`0 < endMs - nowMs ∧ endMs - nowMs ≤ th * 1000`, and
`secondsRemaining > th` is `th * 1000 < endMs - nowMs`. -/
theorem c2_amended (bids : List BidRow) (eventId lineItemId userId freshId : Nat)
    (amount : JSVal) (e : EventRow) (endMs nowMs : Int)
    (hok : jsTruthy amount = true) (hnan : jsIsNaN amount = false)
    (hend : e.auction_end_time = some endMs) (hnp : e.type ≠ "paused") :
    ((0 < endMs - nowMs ∧ endMs - nowMs ≤ jsOr e.extension_threshold 60 * 1000) →
      (postEventBids bids eventId lineItemId userId freshId amount (some e) nowMs).1.newEndTime
        = some (nowMs + jsOr e.extension_time 120 * 1000)
      ∧ (postEventBids bids eventId lineItemId userId freshId amount (some e) nowMs).1.extendedEmit
        = some (nowMs + jsOr e.extension_time 120 * 1000))
    ∧ (jsOr e.extension_threshold 60 * 1000 < endMs - nowMs →
      (postEventBids bids eventId lineItemId userId freshId amount (some e) nowMs).1.newEndTime = none
      ∧ (postEventBids bids eventId lineItemId userId freshId amount (some e) nowMs).1.extendedEmit = none) := by
  simp only [postEventBids, hok, hnan, hend]
  norm_num [hnp]
  constructor
  · intro h1 h2
    rw [if_pos ⟨h1, h2⟩]
    exact ⟨rfl, rfl⟩
  · intro h
    rw [if_neg (by omega)]
    simp [acceptedPlain]

/-- C2 witness: both windows exercised on a concrete event
(stored threshold 60 s, extension 120 s — non-zero, so the effective
values coincide with the stored ones): a bid 45 s before the deadline
moves it to `now + 120000` ms and emits the notice; a bid 110 s before
leaves it untouched. -/
theorem c2_witness :
    ((postEventBids [] 1 2 3 0 (JSVal.num 500)
        (some { type := "open", auction_end_time := some 1045000,
                extension_threshold := some 60, extension_time := some 120 }) 1000000).1.newEndTime
      = some (1000000 + 120 * 1000)
     ∧ (postEventBids [] 1 2 3 0 (JSVal.num 500)
        (some { type := "open", auction_end_time := some 1045000,
                extension_threshold := some 60, extension_time := some 120 }) 1000000).1.extendedEmit
      = some (1000000 + 120 * 1000))
    ∧ ((postEventBids [] 1 2 3 0 (JSVal.num 500)
        (some { type := "open", auction_end_time := some 1110000,
                extension_threshold := some 60, extension_time := some 120 }) 1000000).1.newEndTime = none
     ∧ (postEventBids [] 1 2 3 0 (JSVal.num 500)
        (some { type := "open", auction_end_time := some 1110000,
                extension_threshold := some 60, extension_time := some 120 }) 1000000).1.extendedEmit = none) :=
  ⟨(c2_amended [] 1 2 3 0 (JSVal.num 500) _ 1045000 1000000
      (by decide) (by decide) rfl (by decide)).1 (by norm_num [jsOr]),
   (c2_amended [] 1 2 3 0 (JSVal.num 500) _ 1110000 1000000
      (by decide) (by decide) rfl (by decide)).2 (by norm_num [jsOr])⟩
